import Mathlib

/-!
# Formal model of `mark.py` (GaretJax/pdfedit)

A shallow embedding of the per-student PDF personalisation script.  Pure
values model the data (students, contexts, mask factories, drawing
operations); the mutable PDF page objects of PyPDF2 are modelled by a page
*store* (a list of page contents addressed by index), so that in-place
mutation (`page.mergePage(mask)`) and object copying (`copy.copy(...)`)
are explicit.  The reportlab canvas is modelled as a record accumulating
drawing operations; each drawing operation snapshots the graphics state
(stroke/fill colour, line width, font) current when it is issued.
Exceptions (`IndexError` from list lookups, `KeyError` from dict lookups)
are modelled with `Option` / `Except`.
-/

namespace Mark

/-- reportlab unit: `mm = 72 / 25.4` points (`inch = 72, cm = inch/2.54, mm = cm/10`). -/
def mm : ℚ := 72 / (254 / 10)

/-- reportlab `A4` page size: `(210*mm, 297*mm)` points. -/
def A4 : ℚ × ℚ := (210 * mm, 297 * mm)

/-- The two colours the script uses (`reportlab.lib.colors.black/.white`). -/
inductive Color where
  | black
  | white
deriving DecidableEq, Repr

/-- Teacher record `{'first_name': ..., 'last_name': ...}` of the context. -/
structure Teacher where
  first_name : String
  last_name : String
deriving DecidableEq, Repr

/-- A student record `{'first_name': ..., 'last_name': ..., 'id': ...}`. -/
structure Student where
  first_name : String
  last_name : String
  id : Int
deriving DecidableEq, Repr

/-- The context dictionary.  The script always builds it with `teacher` and
`school` present (mark.py lines 182-188); the keys `student` and `page_num`
are only added by `merge`, hence modelled as `Option` (a missing key is a
`KeyError`, i.e. `none`). -/
structure Context where
  teacher : Teacher
  school : String
  student : Option Student
  page_num : Option Nat
deriving DecidableEq, Repr

/-- The `TableStyle`/`Table` data passed to reportlab in
`TaskPageMask.render`: the label/value rows, column widths, row heights,
and the constant style entries (FONTSIZE 8, LEFTPADDING 13 on column 0,
BACKGROUND white). -/
structure TableSpec where
  data : List (String × String)
  colWidths : List ℚ
  rowHeights : List ℚ
  fontSize : ℚ
  leftPaddingCol0 : ℚ
  background : Color
deriving DecidableEq, Repr

/-- The `Frame(...)` geometry of `TaskPageMask.render`. -/
structure FrameSpec where
  x : ℚ
  y : ℚ
  width : ℚ
  height : ℚ
  leftPadding : ℚ
  rightPadding : ℚ
  topPadding : ℚ
  bottomPadding : ℚ
deriving DecidableEq, Repr

/-- One drawing operation issued to the reportlab canvas, with the graphics
state (colours, line width, font) snapshot at issue time.  `table` stands
for `Frame.addFromList([t], canvas)` drawing the table into the frame. -/
inductive DrawOp where
  | rect (x y w h : ℚ) (stroke fill : Nat)
      (strokeColor fillColor : Option Color) (lineWidth : Option ℚ)
  | drawString (x y : ℚ) (text : String)
      (fillColor : Option Color) (font : Option (String × ℚ))
  | drawRightString (x y : ℚ) (text : String)
      (fillColor : Option Color) (font : Option (String × ℚ))
  | table (frame : FrameSpec) (t : TableSpec)
deriving DecidableEq, Repr

/-- The reportlab canvas: graphics state, operations of the current page,
pages already closed by `showPage`, and whether `save` has been called. -/
structure Canvas where
  pagesize : ℚ × ℚ
  strokeColor : Option Color
  fillColor : Option Color
  lineWidth : Option ℚ
  font : Option (String × ℚ)
  ops : List DrawOp
  closed : List (List DrawOp)
  saved : Bool
deriving DecidableEq, Repr

/-- Model of `canvas.Canvas(packet, pagesize=...)`: a fresh canvas. -/
def Canvas.new (pagesize : ℚ × ℚ) : Canvas :=
  ⟨pagesize, none, none, none, none, [], [], false⟩

def Canvas.setStrokeColor (c : Canvas) (col : Color) : Canvas :=
  { c with strokeColor := some col }

def Canvas.setFillColor (c : Canvas) (col : Color) : Canvas :=
  { c with fillColor := some col }

def Canvas.setLineWidth (c : Canvas) (w : ℚ) : Canvas :=
  { c with lineWidth := some w }

def Canvas.setFont (c : Canvas) (name : String) (size : ℚ) : Canvas :=
  { c with font := some (name, size) }

def Canvas.rect (c : Canvas) (x y w h : ℚ) (stroke fill : Nat) : Canvas :=
  { c with ops := c.ops ++ [DrawOp.rect x y w h stroke fill c.strokeColor c.fillColor c.lineWidth] }

def Canvas.drawString (c : Canvas) (x y : ℚ) (text : String) : Canvas :=
  { c with ops := c.ops ++ [DrawOp.drawString x y text c.fillColor c.font] }

def Canvas.drawRightString (c : Canvas) (x y : ℚ) (text : String) : Canvas :=
  { c with ops := c.ops ++ [DrawOp.drawRightString x y text c.fillColor c.font] }

/-- Model of `Frame.addFromList([t], canvas)`: draw the table into the frame. -/
def Canvas.addTable (c : Canvas) (f : FrameSpec) (t : TableSpec) : Canvas :=
  { c with ops := c.ops ++ [DrawOp.table f t] }

/-- Model of `canvas.showPage()`: close the current page and reset the graphics state. -/
def Canvas.showPage (c : Canvas) : Canvas :=
  { c with closed := c.closed ++ [c.ops], ops := [],
           strokeColor := none, fillColor := none, lineWidth := none, font := none }

/-- Model of `canvas.save()`. -/
def Canvas.save (c : Canvas) : Canvas :=
  { c with saved := true }

/-- The content of one PDF page: an (abstract) page of the input document,
a page rendered by a canvas, or the result of `base.mergePage(over)`. -/
inductive Content where
  | raw (tag : Nat)
  | rendered (ops : List DrawOp)
  | overlay (base over : Content)
deriving DecidableEq, Repr

/-- Fields of `TaskPageMask.__init__` (mark.py lines 51-58). -/
structure TaskPageMask where
  left_margin : ℚ
  right_margin : ℚ
  top_margin : ℚ
  box_height : ℚ
  box_width : ℚ
  bottom_margin : ℚ
deriving DecidableEq, Repr

/-- Model of `TaskPageMask.__init__(box_height, left_margin, right_margin, top_margin)`:
stores the arguments and derives `box_width` and `bottom_margin` from the
class attribute `pagesize = A4`. -/
def TaskPageMask.init (box_height left_margin right_margin top_margin : ℚ) : TaskPageMask :=
  ⟨left_margin, right_margin, top_margin, box_height,
   A4.1 - left_margin - right_margin,
   A4.2 - top_margin - box_height⟩

/-- Fields of `AnswerSheetMask.__init__` (mark.py lines 97-104). -/
structure AnswerSheetMask where
  right_margin : ℚ
  top_margin : ℚ
  box_height : ℚ
  box_width : ℚ
  left_margin : ℚ
  bottom_margin : ℚ
deriving DecidableEq, Repr

/-- Model of `AnswerSheetMask.__init__(box_height, box_width, right_margin, top_margin)`:
stores the arguments and derives `left_margin` and `bottom_margin`. -/
def AnswerSheetMask.init (box_height box_width right_margin top_margin : ℚ) : AnswerSheetMask :=
  ⟨right_margin, top_margin, box_height, box_width,
   A4.1 - right_margin - box_width,
   A4.2 - top_margin - box_height⟩

/-- The concrete `MaskFactory` subclasses (the ones with a `render` method):
`EmptyPageMask`, `TaskPageMask`, `AnswerSheetMask`. -/
inductive SimpleMask where
  | empty
  | task (m : TaskPageMask)
  | answer (m : AnswerSheetMask)
deriving DecidableEq, Repr

/-- Model of `get_canvas`: the base class returns a fresh canvas with `pagesize = A4`;
`TaskPageMask` additionally sets stroke black / fill white / line width
`0.2*mm`; `AnswerSheetMask` does the same and sets font Helvetica 8. -/
def SimpleMask.get_canvas : SimpleMask → Canvas
  | .empty => Canvas.new A4
  | .task _ =>
      (((Canvas.new A4).setStrokeColor Color.black).setFillColor Color.white).setLineWidth (0.2 * mm)
  | .answer _ =>
      (((((Canvas.new A4).setStrokeColor Color.black).setFillColor Color.white).setLineWidth
        (0.2 * mm)).setFont ("Helvetica") 8)

/-- Model of `TaskPageMask.render` (mark.py lines 67-93): an opaque bordered white
rectangle, then a five-row label/value table drawn in a frame over it.
Missing context keys (`KeyError`) yield `none`. -/
def TaskPageMask.render (m : TaskPageMask) (c : Canvas) (ctx : Context) : Option Canvas :=
  let c := c.rect m.left_margin m.bottom_margin m.box_width m.box_height 1 1
  match ctx.student with
  | none => none
  | some s =>
    let data : List (String × String) :=
      [("Last name:", s.last_name),
       ("Name:", s.first_name),
       ("Teacher:", ctx.teacher.last_name ++ " " ++ ctx.teacher.first_name),
       ("ID:", toString s.id),
       ("School:", ctx.school)]
    let t : TableSpec :=
      ⟨data, [30 * mm, m.box_width - 32 * mm],
       List.replicate data.length ((m.box_height - 3 * mm) / (data.length : ℚ)),
       8, 13, Color.white⟩
    let f : FrameSpec :=
      ⟨m.left_margin, m.bottom_margin, m.box_width, m.box_height,
       1 * mm, 1 * mm, 2.5 * mm, 0 * mm⟩
    some (c.addTable f t)

/-- Model of `AnswerSheetMask.render` (mark.py lines 114-125): an opaque (borderless)
white rectangle, then the student id and the page number in black. -/
def AnswerSheetMask.render (m : AnswerSheetMask) (c : Canvas) (ctx : Context) : Option Canvas :=
  let c := c.rect m.left_margin m.bottom_margin m.box_width m.box_height 0 1
  let c := c.setFillColor Color.black
  match ctx.student with
  | none => none
  | some s =>
    let c := c.drawString (m.left_margin + 2 * mm) (m.bottom_margin + 2 * mm)
      ("ID: " ++ toString s.id)
    match ctx.page_num with
    | none => none
    | some p =>
      some (c.drawRightString (m.left_margin + m.box_width - 2 * mm) (m.bottom_margin + 2 * mm)
        ("(Seite " ++ toString p ++ ")"))

/-- Dispatch of `render` over the concrete mask classes
(`EmptyPageMask.render` does nothing). -/
def SimpleMask.render : SimpleMask → Canvas → Context → Option Canvas
  | .empty, c, _ => some c
  | .task m, c, ctx => m.render c ctx
  | .answer m, c, ctx => m.render c ctx

/-- The intermediate document of `MaskFactory.get_mask_page` (mark.py lines
21-28): render on a fresh canvas, `showPage()`, `save()`; the resulting
in-memory PDF is the list of closed pages. -/
def SimpleMask.get_mask_page_doc (f : SimpleMask) (ctx : Context) : Option (List (List DrawOp)) :=
  match f.render f.get_canvas ctx with
  | none => none
  | some c => some ((c.showPage).save).closed

/-- Model of `MaskFactory.get_mask_page`: `PdfFileReader(packet).getPage(0)` of the
rendered document. -/
def SimpleMask.get_mask_page (f : SimpleMask) (ctx : Context) : Option Content :=
  match f.get_mask_page_doc ctx with
  | none => none
  | some doc =>
    match doc[0]? with
    | none => none
    | some ops => some (Content.rendered ops)

/-- A mask factory as used by `merge`: either one of the concrete
`MaskFactory` subclasses, or a `MultipleMaskFactory` over a list of them
(the script only ever passes concrete subclasses to
`MultipleMaskFactory`). -/
inductive Mask where
  | simple (f : SimpleMask)
  | multiple (factories : List SimpleMask)
deriving DecidableEq, Repr

/-- The loop of `MultipleMaskFactory.get_mask_page` (mark.py lines 40-41):
merge each remaining factory's mask page onto `page` in list order. -/
def mergeRest (ctx : Context) : List SimpleMask → Content → Option Content
  | [], page => some page
  | f :: fs, page =>
    match f.get_mask_page ctx with
    | none => none
    | some m => mergeRest ctx fs (Content.overlay page m)

/-- Dispatch of `get_mask_page` over either factory kind.  `MultipleMaskFactory` takes
`factories[0]`'s page (an `IndexError`, i.e. `none`, on the empty list) and
merges the rest onto it. -/
def Mask.get_mask_page : Mask → Context → Option Content
  | .simple f, ctx => f.get_mask_page ctx
  | .multiple [], _ => none
  | .multiple (f :: fs), ctx =>
    match f.get_mask_page ctx with
    | none => none
    | some page => mergeRest ctx fs page

/-- Well-formedness of a mask factory: a `MultipleMaskFactory` must have a
non-empty factory list (otherwise `factories[0]` raises). -/
def Mask.wf : Mask → Bool
  | .simple _ => true
  | .multiple [] => false
  | .multiple (_ :: _) => true

/-- Model of `PdfFileReader`: the input document, as a list of page object ids
(indices into the page store). -/
structure PdfReader where
  pageIds : List Nat
deriving DecidableEq, Repr

/-- Model of `input_pdf.getNumPages()`. -/
def PdfReader.getNumPages (r : PdfReader) : Nat := r.pageIds.length

/-- The mutable state threaded through `merge`: the page store (each PyPDF2
page object, addressed by id), the context dictionary (mutated in place by
`context.update`), and the page list of the `PdfFileWriter`. -/
structure St where
  store : List Content
  ctx : Context
  output : List Nat
deriving DecidableEq, Repr

/-- One iteration of the inner loop of `merge` (mark.py lines 136-143):
update `page_num` in the context, copy the input page
(`copy.copy(input_pdf.getPage(page_num))` allocates a fresh page object),
look up `mapping[page_num]` (an `IndexError`, modelled as `Except.error`,
when out of range), compute the mask page, merge it onto the copy in
place, and append the copy to the output writer.  An error carries the
state at raise time (the exception propagates unhandled). -/
def mergeStep (mapping : List Mask) (input_pdf : PdfReader) (page_num : Nat) (st : St) :
    Except St St :=
  let ctx1 : Context := { st.ctx with page_num := some page_num }
  match input_pdf.pageIds[page_num]? with
  | none => Except.error { st with ctx := ctx1 }
  | some pid =>
    match st.store[pid]? with
    | none => Except.error { st with ctx := ctx1 }
    | some content =>
      let newId := st.store.length
      let store1 := st.store ++ [content]
      match mapping[page_num]? with
      | none => Except.error ⟨store1, ctx1, st.output⟩
      | some mf =>
        match mf.get_mask_page ctx1 with
        | none => Except.error ⟨store1, ctx1, st.output⟩
        | some mask =>
          let store2 := store1.set newId (Content.overlay content mask)
          Except.ok ⟨store2, ctx1, st.output ++ [newId]⟩

/-- The inner loop `for page_num in range(input_pdf.getNumPages())`. -/
def runPages (mapping : List Mask) (input_pdf : PdfReader) : List Nat → St → Except St St
  | [], st => Except.ok st
  | p :: ps, st =>
    match mergeStep mapping input_pdf p st with
    | Except.error e => Except.error e
    | Except.ok st1 => runPages mapping input_pdf ps st1

/-- The outer loop `for student in students`: update `student` in the
context, then run the inner loop over all page indices. -/
def runStudents (mapping : List Mask) (input_pdf : PdfReader) : List Student → St → Except St St
  | [], st => Except.ok st
  | s :: rest, st =>
    let st1 : St := { st with ctx := { st.ctx with student := some s } }
    match runPages mapping input_pdf (List.range input_pdf.getNumPages) st1 with
    | Except.error e => Except.error e
    | Except.ok st2 => runStudents mapping input_pdf rest st2

/-- Model of `merge(context, students, mapping, input_pdf)` (mark.py lines 128-145),
given the page store holding the input document's page objects.  Returns
the final state (`Except.ok`) or the state at the unhandled exception
(`Except.error`); the state's `output` field is the `PdfFileWriter`'s page
list, its `ctx` field is the caller's context dictionary after the call. -/
def merge (context : Context) (students : List Student) (mapping : List Mask)
    (input_pdf : PdfReader) (store : List Content) : Except St St :=
  runStudents mapping input_pdf students ⟨store, context, []⟩

/-- The state a run ends in, whether it returned or raised. -/
def resultState : Except St St → St
  | Except.ok st => st
  | Except.error st => st

/-- Whether a run returned normally. -/
def isOk : Except St St → Bool
  | Except.ok _ => true
  | Except.error _ => false

/-- The context as seen by a mask factory for student `s` on page `p`:
the caller's dictionary with `student` and `page_num` updated. -/
def ctxWith (ctx : Context) (s : Student) (p : Nat) : Context :=
  { ctx with student := some s, page_num := some p }

/-- The expected content of the output page for student `s` and page index
`p`: the input page copied from the store, with the mask page of the
`p`-th mapping entry (computed in the context for `s` and `p`) merged onto
it.  `none` when any of the lookups or the mask rendering fails. -/
def personalized (ctx : Context) (mapping : List Mask) (input_pdf : PdfReader)
    (store : List Content) (s : Student) (p : Nat) : Option Content :=
  match input_pdf.pageIds[p]? with
  | none => none
  | some pid =>
    match store[pid]? with
    | none => none
    | some content =>
      match mapping[p]? with
      | none => none
      | some mf =>
        match mf.get_mask_page (ctxWith ctx s p) with
        | none => none
        | some mask => some (Content.overlay content mask)

/-- The contents of the pages in the output writer of a state. -/
def outContents (st : St) : List (Option Content) :=
  st.output.map (fun i => st.store[i]?)

/-- The context stripped to the fields `merge` never changes. -/
def Context.base (c : Context) : Context := ⟨c.teacher, c.school, none, none⟩

/-- Folding the `page_num` updates of a run over page indices `ps`. -/
def lastPage : List Nat → Option Nat → Option Nat
  | [], d => d
  | p :: ps, _ => lastPage ps (some p)

/-- Folding the `student` updates of a run over students `ss`. -/
def lastStudent : List Student → Option Student → Option Student
  | [], d => d
  | s :: ss, _ => lastStudent ss (some s)

/-- Folding the `page_num` updates of the whole double loop. -/
def threadPages : List Student → Nat → Option Nat → Option Nat
  | [], _, d => d
  | _ :: rest, n, d => threadPages rest n (lastPage (List.range n) d)

/-- The expected output contents of the whole double loop: for each student
in order, the personalized pages `0, ..., n-1` in order. -/
def pagesFor (cB : Context) (mapping : List Mask) (input_pdf : PdfReader)
    (store : List Content) (n : Nat) : List Student → List (Option Content)
  | [] => []
  | s :: rest =>
    (List.range n).map (personalized cB mapping input_pdf store s) ++
      pagesFor cB mapping input_pdf store n rest

namespace Config

/-- Value `simple_header_mask` (mark.py lines 152-153). -/
def simple_header_mask : AnswerSheetMask :=
  AnswerSheetMask.init (10 * mm) (42 * mm) (11 * mm) (15 * mm)

/-- The `TaskPageMask` of the second mapping entry (mark.py lines 159-160). -/
def task_mask : TaskPageMask :=
  TaskPageMask.init (25 * mm) (20.5 * mm) (14.5 * mm) (28 * mm)

/-- Value `mapping` (mark.py lines 156-166). -/
def mapping : List Mask :=
  [Mask.simple SimpleMask.empty,
   Mask.multiple [SimpleMask.task task_mask, SimpleMask.answer simple_header_mask],
   Mask.simple (SimpleMask.answer simple_header_mask),
   Mask.simple (SimpleMask.answer simple_header_mask),
   Mask.simple (SimpleMask.answer simple_header_mask)]

/-- Value `students` (mark.py lines 169-179). -/
def students : List Student :=
  [⟨"Jonathan", "Stoppani", 123455⟩,
   ⟨"Vanessa", "Tay", 98635⟩,
   ⟨"Jakub", "Janoszek", 19757⟩]

/-- Value `context` (mark.py lines 182-188). -/
def context : Context :=
  ⟨⟨"Urs", "Moser"⟩, "DIVIO Test School", none, none⟩

/-- A five-page input document for concrete runs. -/
def sampleReader : PdfReader := ⟨[0, 1, 2, 3, 4]⟩

/-- The store holding the five input page objects. -/
def sampleStore : List Content :=
  [Content.raw 0, Content.raw 1, Content.raw 2, Content.raw 3, Content.raw 4]

/-- A six-page input document: one page more than the mapping has entries. -/
def bigReader : PdfReader := ⟨[0, 1, 2, 3, 4, 5]⟩

/-- The store holding the six input page objects of `bigReader`. -/
def bigStore : List Content :=
  [Content.raw 0, Content.raw 1, Content.raw 2, Content.raw 3, Content.raw 4, Content.raw 5]

/-- The first student of the list. -/
def stu : Student := ⟨"Jonathan", "Stoppani", 123455⟩

/-- The context as a mask factory observes it for `stu` on page 0. -/
def sampleCtx : Context := ctxWith context stu 0

end Config


/-! ## Basic list facts used by the verification -/

theorem set_concat {α : Type _} (l : List α) (a b : α) :
    (l ++ [a]).set l.length b = l ++ [b] := by
  induction l with
  | nil => rfl
  | cons x xs ih => simp [List.set, ih]

theorem map_eq_on {α β : Type _} (l : List α) (f g : α → β) (h : ∀ a ∈ l, f a = g a) :
    l.map f = l.map g := by
  induction l with
  | nil => rfl
  | cons x xs ih =>
    simp only [List.map_cons, h x (by simp)]
    exact congrArg _ (ih fun a ha => h a (by simp [ha]))

theorem mem_of_getElem_some {α : Type _} (l : List α) (n : Nat) (a : α)
    (h : l[n]? = some a) : a ∈ l := by
  obtain ⟨hlt, rfl⟩ := List.getElem?_eq_some.mp h
  exact List.getElem_mem hlt

/-! ## Totality of the mask factories on contexts carrying a student and a
page number -/

theorem simple_get_mask_page_isSome (f : SimpleMask) (ctx : Context) (s : Student) (p : Nat)
    (hs : ctx.student = some s) (hp : ctx.page_num = some p) :
    (f.get_mask_page ctx).isSome := by
  cases f with
  | empty =>
    simp [SimpleMask.get_mask_page, SimpleMask.get_mask_page_doc, SimpleMask.render,
      Canvas.showPage, Canvas.save, SimpleMask.get_canvas, Canvas.new]
  | task m =>
    simp [SimpleMask.get_mask_page, SimpleMask.get_mask_page_doc, SimpleMask.render,
      TaskPageMask.render, hs, Canvas.showPage, Canvas.save, SimpleMask.get_canvas,
      Canvas.new, Canvas.setStrokeColor, Canvas.setFillColor, Canvas.setLineWidth,
      Canvas.rect, Canvas.addTable]
  | answer m =>
    simp [SimpleMask.get_mask_page, SimpleMask.get_mask_page_doc, SimpleMask.render,
      AnswerSheetMask.render, hs, hp, Canvas.showPage, Canvas.save, SimpleMask.get_canvas,
      Canvas.new, Canvas.setStrokeColor, Canvas.setFillColor, Canvas.setLineWidth,
      Canvas.setFont, Canvas.rect, Canvas.drawString, Canvas.drawRightString]

theorem mergeRest_isSome (ctx : Context) (s : Student) (p : Nat)
    (hs : ctx.student = some s) (hp : ctx.page_num = some p) :
    ∀ (fs : List SimpleMask) (page : Content), (mergeRest ctx fs page).isSome := by
  intro fs
  induction fs with
  | nil => intro page; simp [mergeRest]
  | cons f fs ih =>
    intro page
    obtain ⟨m, hm⟩ := Option.isSome_iff_exists.mp (simple_get_mask_page_isSome f ctx s p hs hp)
    simp [mergeRest, hm, ih]

theorem mask_get_mask_page_isSome (mf : Mask) (hwf : mf.wf = true) (ctx : Context)
    (s : Student) (p : Nat) (hs : ctx.student = some s) (hp : ctx.page_num = some p) :
    (mf.get_mask_page ctx).isSome := by
  cases mf with
  | simple f => exact simple_get_mask_page_isSome f ctx s p hs hp
  | multiple fs =>
    cases fs with
    | nil => simp [Mask.wf] at hwf
    | cons f fs =>
      obtain ⟨m, hm⟩ := Option.isSome_iff_exists.mp (simple_get_mask_page_isSome f ctx s p hs hp)
      simp only [Mask.get_mask_page, hm]
      exact mergeRest_isSome ctx s p hs hp fs m

theorem personalized_isSome (cB : Context) (mapping : List Mask) (input_pdf : PdfReader)
    (store : List Content) (s : Student) (p : Nat)
    (hids : ∀ id ∈ input_pdf.pageIds, id < store.length)
    (hwf : ∀ m ∈ mapping.take input_pdf.getNumPages, m.wf = true)
    (hp : p < input_pdf.getNumPages) (hmp : p < mapping.length) :
    (personalized cB mapping input_pdf store s p).isSome := by
  have hp' : p < input_pdf.pageIds.length := hp
  obtain ⟨pid, hpid⟩ : ∃ pid, input_pdf.pageIds[p]? = some pid := by
    rw [List.getElem?_eq_getElem hp']; exact ⟨_, rfl⟩
  have hpidlt : pid < store.length := hids pid (mem_of_getElem_some _ _ _ hpid)
  obtain ⟨content, hcont⟩ : ∃ content, store[pid]? = some content := by
    rw [List.getElem?_eq_getElem hpidlt]; exact ⟨_, rfl⟩
  obtain ⟨mf, hmf⟩ : ∃ mf, mapping[p]? = some mf := by
    rw [List.getElem?_eq_getElem hmp]; exact ⟨_, rfl⟩
  have hmfwf : mf.wf = true := by
    apply hwf
    have hmem : (mapping.take input_pdf.getNumPages)[p]? = some mf := by
      rw [List.getElem?_take_of_lt hp]; exact hmf
    exact mem_of_getElem_some _ _ _ hmem
  obtain ⟨mask, hmask⟩ := Option.isSome_iff_exists.mp
    (mask_get_mask_page_isSome mf hmfwf (ctxWith cB s p) s p rfl rfl)
  simp only [personalized, hpid, hcont, hmf, hmask, Option.isSome_some]


/-! ## Destructuring a successful `personalized` computation -/

theorem personalized_eq_some (cB : Context) (mapping : List Mask) (input_pdf : PdfReader)
    (sto0 : List Content) (s : Student) (p : Nat)
    (h : (personalized cB mapping input_pdf sto0 s p).isSome) :
    ∃ pid content mf mask,
      input_pdf.pageIds[p]? = some pid ∧
      sto0[pid]? = some content ∧
      mapping[p]? = some mf ∧
      mf.get_mask_page (ctxWith cB s p) = some mask ∧
      personalized cB mapping input_pdf sto0 s p = some (Content.overlay content mask) := by
  unfold personalized at h ⊢
  cases hpid : input_pdf.pageIds[p]? with
  | none => simp [hpid] at h
  | some pid =>
    cases hcont : sto0[pid]? with
    | none => simp [hpid, hcont] at h
    | some content =>
      cases hmf : mapping[p]? with
      | none => simp [hpid, hcont, hmf] at h
      | some mf =>
        cases hmask : mf.get_mask_page (ctxWith cB s p) with
        | none => simp [hpid, hcont, hmf, hmask] at h
        | some mask =>
          exact ⟨pid, content, mf, mask, rfl, hcont, rfl, hmask, by
            simp only [hpid, hcont, hmf, hmask]⟩

/-! ## The inner loop: one student over a list of page indices -/

theorem runPages_spec (mapping : List Mask) (input_pdf : PdfReader) (sto0 : List Content)
    (T : Teacher) (Sch : String) (s : Student)
    (hids : ∀ id ∈ input_pdf.pageIds, id < sto0.length) :
    ∀ (ps : List Nat) (st : St),
      (∃ t, st.store = sto0 ++ t) →
      (∀ id ∈ st.output, id < st.store.length) →
      st.ctx.teacher = T → st.ctx.school = Sch → st.ctx.student = some s →
      (∀ p ∈ ps, (personalized ⟨T, Sch, none, none⟩ mapping input_pdf sto0 s p).isSome) →
      ∃ st', runPages mapping input_pdf ps st = Except.ok st' ∧
        (∃ t, st'.store = st.store ++ t) ∧
        st'.ctx.teacher = T ∧ st'.ctx.school = Sch ∧ st'.ctx.student = some s ∧
        st'.ctx.page_num = lastPage ps st.ctx.page_num ∧
        (∀ id ∈ st'.output, id < st'.store.length) ∧
        outContents st' = outContents st ++
          ps.map (personalized ⟨T, Sch, none, none⟩ mapping input_pdf sto0 s) := by
  intro ps
  induction ps with
  | nil =>
    intro st hpre hout hT hSch hstu _
    exact ⟨st, rfl, ⟨[], by simp⟩, hT, hSch, hstu, rfl, hout, by simp⟩
  | cons p ps ih =>
    intro st hpre hout hT hSch hstu hall
    obtain ⟨sst, ⟨ct, cs, cstu, cpn⟩, sout⟩ := st
    dsimp only at hpre hout hT hSch hstu ⊢
    subst hT; subst hSch; subst hstu
    obtain ⟨t, ht⟩ := hpre
    obtain ⟨pid, content, mf, mask, hpid, hcont, hmf, hmask, hpers⟩ :=
      personalized_eq_some ⟨ct, cs, none, none⟩ mapping input_pdf sto0 s p (hall p (by simp))
    have hpidlt : pid < sto0.length := hids pid (mem_of_getElem_some _ _ _ hpid)
    have hstcont : (sst)[pid]? = some content := by
      rw [ht, List.getElem?_append_left hpidlt]; exact hcont
    have hmask' : mf.get_mask_page ⟨ct, cs, some s, some p⟩ = some mask := hmask
    have hstep : mergeStep mapping input_pdf p ⟨sst, ⟨ct, cs, some s, cpn⟩, sout⟩ =
        Except.ok ⟨sst ++ [Content.overlay content mask], ⟨ct, cs, some s, some p⟩,
          sout ++ [sst.length]⟩ := by
      simp only [mergeStep, hpid, hstcont, hmf, hmask', set_concat]
    obtain ⟨st', hrun, ⟨t', ht'⟩, hT', hSch', hstu', hpn', hout', hcontents⟩ :=
      ih ⟨sst ++ [Content.overlay content mask], ⟨ct, cs, some s, some p⟩, sout ++ [sst.length]⟩
        ⟨t ++ [Content.overlay content mask], by rw [ht, List.append_assoc]⟩
        (by
          intro id hid
          simp only [List.mem_append, List.mem_singleton] at hid
          simp only [List.length_append, List.length_singleton]
          rcases hid with hid | hid
          · exact Nat.lt_succ_of_lt (hout id hid)
          · omega)
        rfl rfl rfl
        (fun q hq => hall q (by simp [hq]))
    refine ⟨st', ?_, ⟨[Content.overlay content mask] ++ t', by rw [ht', List.append_assoc]⟩,
      hT', hSch', hstu', ?_, hout', ?_⟩
    · simp only [runPages, hstep]
      exact hrun
    · simpa [lastPage] using hpn'
    · have hoc1 : outContents ⟨sst ++ [Content.overlay content mask],
          ⟨ct, cs, some s, some p⟩, sout ++ [sst.length]⟩ =
          outContents ⟨sst, ⟨ct, cs, some s, cpn⟩, sout⟩ ++
            [personalized ⟨ct, cs, none, none⟩ mapping input_pdf sto0 s p] := by
        unfold outContents
        simp only [List.map_append, List.map_cons, List.map_nil]
        congr 1
        · exact map_eq_on sout _ _ (fun id hid => List.getElem?_append_left (hout id hid))
        · rw [List.getElem?_concat_length, hpers]
      rw [hcontents, hoc1, List.append_assoc]
      simp


/-! ## The outer loop: all students -/

theorem runStudents_spec (mapping : List Mask) (input_pdf : PdfReader) (sto0 : List Content)
    (T : Teacher) (Sch : String)
    (hids : ∀ id ∈ input_pdf.pageIds, id < sto0.length) :
    ∀ (ss : List Student) (st : St),
      (∃ t, st.store = sto0 ++ t) →
      (∀ id ∈ st.output, id < st.store.length) →
      st.ctx.teacher = T → st.ctx.school = Sch →
      (∀ s ∈ ss, ∀ p ∈ List.range input_pdf.getNumPages,
        (personalized ⟨T, Sch, none, none⟩ mapping input_pdf sto0 s p).isSome) →
      ∃ st', runStudents mapping input_pdf ss st = Except.ok st' ∧
        (∃ t, st'.store = st.store ++ t) ∧
        st'.ctx.teacher = T ∧ st'.ctx.school = Sch ∧
        st'.ctx.student = lastStudent ss st.ctx.student ∧
        st'.ctx.page_num = threadPages ss input_pdf.getNumPages st.ctx.page_num ∧
        (∀ id ∈ st'.output, id < st'.store.length) ∧
        outContents st' = outContents st ++
          pagesFor ⟨T, Sch, none, none⟩ mapping input_pdf sto0 input_pdf.getNumPages ss := by
  intro ss
  induction ss with
  | nil =>
    intro st hpre hout hT hSch _
    exact ⟨st, rfl, ⟨[], by simp⟩, hT, hSch, rfl, rfl, hout, by simp [pagesFor]⟩
  | cons s rest ih =>
    intro st hpre hout hT hSch hall
    obtain ⟨sst, ⟨ct, cs, cstu, cpn⟩, sout⟩ := st
    dsimp only at hpre hout hT hSch ⊢
    subst hT; subst hSch
    obtain ⟨st2, hrun2, hpre2, hT2, hSch2, hstu2, hpn2, hout2, hoc2⟩ :=
      runPages_spec mapping input_pdf sto0 ct cs s hids (List.range input_pdf.getNumPages)
        ⟨sst, ⟨ct, cs, some s, cpn⟩, sout⟩ hpre hout rfl rfl rfl
        (fun p hp => hall s (by simp) p hp)
    obtain ⟨t, ht⟩ := hpre
    obtain ⟨t2, ht2⟩ := hpre2
    obtain ⟨st', hrun', hpre', hT', hSch', hstu', hpn', hout', hoc'⟩ :=
      ih st2 ⟨t ++ t2, by rw [ht2, ht, List.append_assoc]⟩ hout2 hT2 hSch2
        (fun s2 hs2 => hall s2 (by simp [hs2]))
    obtain ⟨t', ht'⟩ := hpre'
    refine ⟨st', ?_, ⟨t2 ++ t', by rw [ht', ht2, List.append_assoc]⟩, hT', hSch', ?_, ?_, hout', ?_⟩
    · simp only [runStudents, hrun2]
      exact hrun'
    · rw [hstu', hstu2]
      rfl
    · rw [hpn', hpn2]
      rfl
    · rw [hoc', hoc2]
      rw [List.append_assoc]
      rfl

/-! ## Tail-tracking helper facts -/

theorem lastPage_concat : ∀ (l : List Nat) (q : Nat) (d : Option Nat),
    lastPage (l ++ [q]) d = some q := by
  intro l
  induction l with
  | nil => intro q d; rfl
  | cons x xs ih => intro q d; exact ih q (some x)

theorem lastPage_range (n : Nat) (hn : 1 ≤ n) (d : Option Nat) :
    lastPage (List.range n) d = some (n - 1) := by
  obtain ⟨m, rfl⟩ : ∃ m, n = m + 1 := ⟨n - 1, by omega⟩
  rw [List.range_succ, lastPage_concat]
  simp

theorem threadPages_total (n : Nat) (hn : 1 ≤ n) :
    ∀ (ss : List Student) (d : Option Nat), ss ≠ [] → threadPages ss n d = some (n - 1) := by
  intro ss
  induction ss with
  | nil => intro d h; exact absurd rfl h
  | cons s rest ih =>
    intro d _
    rcases rest with _ | ⟨r, rs⟩
    · show lastPage (List.range n) d = some (n - 1)
      exact lastPage_range n hn d
    · exact ih (lastPage (List.range n) d) (by simp)

theorem lastStudent_getLast : ∀ (ss : List Student) (d : Option Student), ss ≠ [] →
    lastStudent ss d = ss.getLast? := by
  intro ss
  induction ss with
  | nil => intro d h; exact absurd rfl h
  | cons s rest ih =>
    intro d _
    rcases rest with _ | ⟨r, rs⟩
    · rfl
    · rw [show lastStudent (s :: r :: rs) d = lastStudent (r :: rs) (some s) from rfl,
        ih (some s) (by simp), List.getLast?_cons_cons]

/-! ## Length and indexing of the expected output -/

theorem pagesFor_length (cB : Context) (mapping : List Mask) (input_pdf : PdfReader)
    (sto : List Content) (n : Nat) :
    ∀ ss : List Student, (pagesFor cB mapping input_pdf sto n ss).length = ss.length * n := by
  intro ss
  induction ss with
  | nil => simp [pagesFor]
  | cons s rest ih =>
    simp only [pagesFor, List.length_append, List.length_map, List.length_range, ih,
      List.length_cons]
    ring

theorem pagesFor_getElem (cB : Context) (mapping : List Mask) (input_pdf : PdfReader)
    (sto : List Content) (n : Nat) :
    ∀ (ss : List Student) (si pi : Nat) (hsi : si < ss.length) (hpi : pi < n),
      (pagesFor cB mapping input_pdf sto n ss)[si * n + pi]? =
        some (personalized cB mapping input_pdf sto (ss.get ⟨si, hsi⟩) pi) := by
  intro ss
  induction ss with
  | nil =>
    intro si pi hsi hpi
    simp at hsi
  | cons s rest ih =>
    intro si pi hsi hpi
    cases si with
    | zero =>
      have hlt : 0 * n + pi < ((List.range n).map
          (personalized cB mapping input_pdf sto s)).length := by
        simp [hpi]
      rw [pagesFor, List.getElem?_append_left hlt, List.getElem?_map]
      have : (0 : Nat) * n + pi = pi := by omega
      rw [this, List.getElem?_range hpi]
      rfl
    | succ si =>
      have hge : ((List.range n).map (personalized cB mapping input_pdf sto s)).length ≤
          (si + 1) * n + pi := by
        simp only [List.length_map, List.length_range]
        nlinarith
      rw [pagesFor, List.getElem?_append_right hge]
      have harith : (si + 1) * n + pi - ((List.range n).map
          (personalized cB mapping input_pdf sto s)).length = si * n + pi := by
        simp only [List.length_map, List.length_range]
        ring_nf
        omega
      rw [harith, ih si pi (by simpa using hsi) hpi]
      rfl


/-! ## The whole of `merge` on well-formed inputs -/

theorem outContents_length (st : St) : (outContents st).length = st.output.length := by
  simp [outContents]

theorem merge_spec (cx : Context) (ss : List Student) (mapping : List Mask)
    (input_pdf : PdfReader) (store : List Content)
    (hids : ∀ id ∈ input_pdf.pageIds, id < store.length)
    (hn : input_pdf.getNumPages ≤ mapping.length)
    (hwf : ∀ m ∈ mapping.take input_pdf.getNumPages, m.wf = true) :
    ∃ st', merge cx ss mapping input_pdf store = Except.ok st' ∧
      (∃ t, st'.store = store ++ t) ∧
      st'.ctx.teacher = cx.teacher ∧ st'.ctx.school = cx.school ∧
      st'.ctx.student = lastStudent ss cx.student ∧
      st'.ctx.page_num = threadPages ss input_pdf.getNumPages cx.page_num ∧
      (∀ id ∈ st'.output, id < st'.store.length) ∧
      outContents st' =
        pagesFor ⟨cx.teacher, cx.school, none, none⟩ mapping input_pdf store
          input_pdf.getNumPages ss := by
  have hall : ∀ s ∈ ss, ∀ p ∈ List.range input_pdf.getNumPages,
      (personalized ⟨cx.teacher, cx.school, none, none⟩ mapping input_pdf store s p).isSome := by
    intro s _ p hp
    rw [List.mem_range] at hp
    exact personalized_isSome _ mapping input_pdf store s p hids hwf hp (lt_of_lt_of_le hp hn)
  obtain ⟨st', h1, h2, h3, h4, h5, h6, h7, h8⟩ :=
    runStudents_spec mapping input_pdf store cx.teacher cx.school hids ss
      ⟨store, cx, []⟩ ⟨[], by simp⟩ (by intro id hid; simp at hid) rfl rfl hall
  exact ⟨st', h1, h2, h3, h4, h5, h6, h7, by simpa [outContents] using h8⟩

/-! ## The store is only ever extended (input pages are never mutated) -/

theorem mergeStep_store_mono (mapping : List Mask) (input_pdf : PdfReader) (p : Nat) (st : St) :
    ∃ t, (resultState (mergeStep mapping input_pdf p st)).store = st.store ++ t := by
  unfold mergeStep
  cases h1 : input_pdf.pageIds[p]? with
  | none => exact ⟨[], by simp [resultState]⟩
  | some pid =>
    cases h2 : st.store[pid]? with
    | none => exact ⟨[], by simp [resultState, h2]⟩
    | some content =>
      cases h3 : mapping[p]? with
      | none => exact ⟨[content], by simp [resultState, h2, h3]⟩
      | some mf =>
        cases h4 : mf.get_mask_page { st.ctx with page_num := some p } with
        | none => exact ⟨[content], by simp [resultState, h2, h3, h4]⟩
        | some mask =>
          exact ⟨[Content.overlay content mask], by simp [resultState, h2, h3, h4, set_concat]⟩

theorem runPages_store_mono (mapping : List Mask) (input_pdf : PdfReader) :
    ∀ (ps : List Nat) (st : St),
      ∃ t, (resultState (runPages mapping input_pdf ps st)).store = st.store ++ t := by
  intro ps
  induction ps with
  | nil => intro st; exact ⟨[], by simp [runPages, resultState]⟩
  | cons p ps ih =>
    intro st
    cases hstep : mergeStep mapping input_pdf p st with
    | error e =>
      obtain ⟨t, ht⟩ := mergeStep_store_mono mapping input_pdf p st
      rw [hstep] at ht
      exact ⟨t, by simp [runPages, hstep, resultState]; simpa [resultState] using ht⟩
    | ok st1 =>
      obtain ⟨t, ht⟩ := mergeStep_store_mono mapping input_pdf p st
      rw [hstep] at ht
      obtain ⟨t2, ht2⟩ := ih st1
      refine ⟨t ++ t2, ?_⟩
      rw [show runPages mapping input_pdf (p :: ps) st = runPages mapping input_pdf ps st1 by
        simp [runPages, hstep]]
      rw [ht2]
      simp only [resultState] at ht
      rw [ht, List.append_assoc]

theorem runStudents_store_mono (mapping : List Mask) (input_pdf : PdfReader) :
    ∀ (ss : List Student) (st : St),
      ∃ t, (resultState (runStudents mapping input_pdf ss st)).store = st.store ++ t := by
  intro ss
  induction ss with
  | nil => intro st; exact ⟨[], by simp [runStudents, resultState]⟩
  | cons s rest ih =>
    intro st
    cases hrun : runPages mapping input_pdf (List.range input_pdf.getNumPages)
        { st with ctx := { st.ctx with student := some s } } with
    | error e =>
      obtain ⟨t, ht⟩ := runPages_store_mono mapping input_pdf
        (List.range input_pdf.getNumPages) { st with ctx := { st.ctx with student := some s } }
      rw [hrun] at ht
      simp only [resultState] at ht
      exact ⟨t, by simp [runStudents, hrun, resultState]; simpa using ht⟩
    | ok st2 =>
      obtain ⟨t, ht⟩ := runPages_store_mono mapping input_pdf
        (List.range input_pdf.getNumPages) { st with ctx := { st.ctx with student := some s } }
      rw [hrun] at ht
      simp only [resultState] at ht
      obtain ⟨t2, ht2⟩ := ih st2
      refine ⟨t ++ t2, ?_⟩
      rw [show runStudents mapping input_pdf (s :: rest) st =
          runStudents mapping input_pdf rest st2 by simp [runStudents, hrun]]
      rw [ht2, ht, List.append_assoc]

/-! ## Splitting the inner loop at an index -/

theorem runPages_append (mapping : List Mask) (input_pdf : PdfReader) :
    ∀ (ps qs : List Nat) (st : St),
      runPages mapping input_pdf (ps ++ qs) st =
        match runPages mapping input_pdf ps st with
        | Except.ok st1 => runPages mapping input_pdf qs st1
        | Except.error e => Except.error e := by
  intro ps
  induction ps with
  | nil => intro qs st; rfl
  | cons p ps ih =>
    intro qs st
    cases hstep : mergeStep mapping input_pdf p st with
    | error e => simp [runPages, hstep]
    | ok st1 => simp [runPages, hstep, ih]

/-! ## `MultipleMaskFactory` as a fold -/

theorem mergeRest_eq_foldlM (ctx : Context) : ∀ (fs : List SimpleMask) (page : Content),
    mergeRest ctx fs page =
      fs.foldlM (fun acc f =>
        (f.get_mask_page ctx).map (fun m => Content.overlay acc m)) page := by
  intro fs
  induction fs with
  | nil => intro page; rfl
  | cons f fs ih =>
    intro page
    cases hm : f.get_mask_page ctx with
    | none => simp [mergeRest, hm, List.foldlM_cons]
    | some m => simp [mergeRest, hm, List.foldlM_cons, ih]

/-! ## `get_mask_page` produces a one-page document -/

theorem get_canvas_closed (f : SimpleMask) : f.get_canvas.closed = [] := by
  cases f <;> rfl

theorem render_preserves_closed (f : SimpleMask) (c : Canvas) (ctx : Context) (c' : Canvas)
    (h : f.render c ctx = some c') : c'.closed = c.closed := by
  cases f with
  | empty =>
    simp only [SimpleMask.render, Option.some.injEq] at h
    rw [← h]
  | task m =>
    simp only [SimpleMask.render, TaskPageMask.render] at h
    cases hs : ctx.student with
    | none => rw [hs] at h; simp at h
    | some s =>
      rw [hs] at h
      simp only [Option.some.injEq] at h
      rw [← h]
      simp [Canvas.rect, Canvas.addTable]
  | answer m =>
    simp only [SimpleMask.render, AnswerSheetMask.render] at h
    cases hs : ctx.student with
    | none => rw [hs] at h; simp at h
    | some s =>
      rw [hs] at h
      cases hp : ctx.page_num with
      | none => rw [hp] at h; simp at h
      | some p =>
        rw [hp] at h
        simp only [Option.some.injEq] at h
        rw [← h]
        simp [Canvas.rect, Canvas.setFillColor, Canvas.drawString, Canvas.drawRightString]


/-! ## Claim theorems -/

/-- Claim C4 (confirmed): for every concrete mask factory (one with a `render`
method) and every context on which `render` succeeds, `get_mask_page` renders
onto a fresh canvas, closes exactly one page (the document produced by the
single `showPage` before `save` is the one-element list of the rendered
page's operations), and returns page 0 of that document. -/
theorem get_mask_page_one_page (f : SimpleMask) (ctx : Context) (c' : Canvas)
    (h : f.render f.get_canvas ctx = some c') :
    f.get_mask_page_doc ctx = some [c'.ops] ∧
    f.get_mask_page ctx = some (Content.rendered c'.ops) := by
  have hclosed : c'.closed = [] := by
    rw [render_preserves_closed f f.get_canvas ctx c' h, get_canvas_closed]
  constructor
  · unfold SimpleMask.get_mask_page_doc
    rw [h]
    simp [Canvas.showPage, Canvas.save, hclosed]
  · unfold SimpleMask.get_mask_page SimpleMask.get_mask_page_doc
    rw [h]
    simp [Canvas.showPage, Canvas.save, hclosed]

/-- Witness for C4: `EmptyPageMask` on the script's initial context. -/
theorem get_mask_page_one_page_witness :
    SimpleMask.empty.render SimpleMask.empty.get_canvas Config.context =
      some (Canvas.new A4) ∧
    (SimpleMask.empty.get_mask_page_doc Config.context = some [(Canvas.new A4).ops] ∧
     SimpleMask.empty.get_mask_page Config.context =
       some (Content.rendered (Canvas.new A4).ops)) :=
  ⟨rfl, get_mask_page_one_page SimpleMask.empty Config.context (Canvas.new A4) rfl⟩

/-- Claim C6 (confirmed): `merge` is deterministic — it is a pure function of
its arguments in this embedding (the program keeps no persistent state and
uses no concurrency), so two runs on equal context, students, mapping,
input PDF and page store produce equal results. -/
theorem merge_deterministic (cx1 cx2 : Context) (ss1 ss2 : List Student)
    (mp1 mp2 : List Mask) (r1 r2 : PdfReader) (sto1 sto2 : List Content)
    (h1 : cx1 = cx2) (h2 : ss1 = ss2) (h3 : mp1 = mp2) (h4 : r1 = r2) (h5 : sto1 = sto2) :
    merge cx1 ss1 mp1 r1 sto1 = merge cx2 ss2 mp2 r2 sto2 := by
  subst h1; subst h2; subst h3; subst h4; subst h5; rfl

/-- Witness for C6: two runs on the script's own configuration coincide. -/
theorem merge_deterministic_witness :
    Config.context = Config.context ∧
    merge Config.context Config.students Config.mapping Config.sampleReader Config.sampleStore =
      merge Config.context Config.students Config.mapping Config.sampleReader
        Config.sampleStore :=
  ⟨rfl, merge_deterministic Config.context Config.context Config.students Config.students
    Config.mapping Config.mapping Config.sampleReader Config.sampleReader Config.sampleStore
    Config.sampleStore rfl rfl rfl rfl rfl⟩

/-- Claim C7 (confirmed): the box-placement arithmetic is fixed-layout.
`TaskPageMask.__init__` derives `box_width = page width - left_margin -
right_margin` and `bottom_margin = page height - top_margin - box_height`;
`AnswerSheetMask.__init__` derives `left_margin = page width - right_margin -
box_width` and `bottom_margin = page height - top_margin - box_height`. -/
theorem mask_geometry (box_height left_margin right_margin top_margin box_width : ℚ) :
    ((TaskPageMask.init box_height left_margin right_margin top_margin).box_width =
        A4.1 - left_margin - right_margin ∧
      (TaskPageMask.init box_height left_margin right_margin top_margin).bottom_margin =
        A4.2 - top_margin - box_height) ∧
    ((AnswerSheetMask.init box_height box_width right_margin top_margin).left_margin =
        A4.1 - right_margin - box_width ∧
      (AnswerSheetMask.init box_height box_width right_margin top_margin).bottom_margin =
        A4.2 - top_margin - box_height) :=
  ⟨⟨rfl, rfl⟩, ⟨rfl, rfl⟩⟩

/-- Claim C9 (confirmed): `MultipleMaskFactory.get_mask_page` on the empty
factory list fails (the `factories[0]` lookup has no result), and on a
non-empty list it returns the first factory's mask page with the remaining
factories' mask pages merged onto it in list order (a left fold of
`mergePage`). -/
theorem multiple_mask_factory_fold (ctx : Context) (f0 : SimpleMask)
    (rest : List SimpleMask) :
    (Mask.multiple []).get_mask_page ctx = none ∧
    (Mask.multiple (f0 :: rest)).get_mask_page ctx =
      (f0.get_mask_page ctx).bind (fun page =>
        rest.foldlM (fun acc f =>
          (f.get_mask_page ctx).map (fun m => Content.overlay acc m)) page) := by
  refine ⟨rfl, ?_⟩
  cases h0 : f0.get_mask_page ctx with
  | none => simp [Mask.get_mask_page, h0]
  | some page => simp [Mask.get_mask_page, h0, mergeRest_eq_foldlM]


/-- Counterexample for C1 as stated: with the mapping `[MultipleMaskFactory([])]`
(one entry, so the one-page input does not exceed the mapping length), one
student and a one-page input PDF, `merge` does not return an output writer at
all — the empty `MultipleMaskFactory` raises on `factories[0]` — and the
state at the raise has 0 output pages instead of `1 * 1`. -/
theorem merge_not_total_counterexample :
    (PdfReader.mk [0]).getNumPages ≤ ([Mask.multiple []] : List Mask).length ∧
    isOk (merge Config.context [Config.stu] [Mask.multiple []] ⟨[0]⟩ [Content.raw 0]) = false ∧
    (resultState (merge Config.context [Config.stu] [Mask.multiple []] ⟨[0]⟩
      [Content.raw 0])).output.length = 0 := by
  refine ⟨by decide, by decide, by decide⟩

/-- Claim C1 (corrected): for every context, student list, page-to-mask
mapping, and input PDF with `n` pages (valid page ids, `n` not exceeding the
mapping length), *provided each of the first `n` mapping entries is a
well-formed factory (every `MultipleMaskFactory` non-empty)*, `merge` returns
an output writer containing exactly `len(students) * n` pages in
student-major, page-minor order: the page at output position `s*n + i` is
input page `i` personalized for student `s`. -/
theorem merge_student_major_page_minor (cx : Context) (ss : List Student)
    (mapping : List Mask) (input_pdf : PdfReader) (store : List Content)
    (hids : ∀ id ∈ input_pdf.pageIds, id < store.length)
    (hn : input_pdf.getNumPages ≤ mapping.length)
    (hwf : ∀ m ∈ mapping.take input_pdf.getNumPages, m.wf = true) :
    ∃ st', merge cx ss mapping input_pdf store = Except.ok st' ∧
      st'.output.length = ss.length * input_pdf.getNumPages ∧
      ∀ (si pi : Nat) (hsi : si < ss.length) (hpi : pi < input_pdf.getNumPages),
        (outContents st')[si * input_pdf.getNumPages + pi]? =
          some (personalized ⟨cx.teacher, cx.school, none, none⟩ mapping input_pdf store
            (ss.get ⟨si, hsi⟩) pi) := by
  obtain ⟨st', h1, _, _, _, _, _, _, h8⟩ := merge_spec cx ss mapping input_pdf store hids hn hwf
  refine ⟨st', h1, ?_, ?_⟩
  · have hlen := congrArg List.length h8
    rw [outContents_length, pagesFor_length] at hlen
    exact hlen
  · intro si pi hsi hpi
    rw [h8, pagesFor_getElem _ _ _ _ _ ss si pi hsi hpi]

/-- Witness for the amended C1: the script's own configuration with a
five-page input document. -/
theorem merge_student_major_page_minor_witness :
    ((∀ id ∈ Config.sampleReader.pageIds, id < Config.sampleStore.length) ∧
      Config.sampleReader.getNumPages ≤ Config.mapping.length ∧
      (∀ m ∈ Config.mapping.take Config.sampleReader.getNumPages, m.wf = true)) ∧
    (∃ st', merge Config.context Config.students Config.mapping Config.sampleReader
        Config.sampleStore = Except.ok st' ∧
      st'.output.length = Config.students.length * Config.sampleReader.getNumPages ∧
      ∀ (si pi : Nat) (hsi : si < Config.students.length)
        (hpi : pi < Config.sampleReader.getNumPages),
        (outContents st')[si * Config.sampleReader.getNumPages + pi]? =
          some (personalized ⟨Config.context.teacher, Config.context.school, none, none⟩
            Config.mapping Config.sampleReader Config.sampleStore
            (Config.students.get ⟨si, hsi⟩) pi)) :=
  ⟨⟨by decide, by decide, by decide⟩,
   merge_student_major_page_minor Config.context Config.students Config.mapping
     Config.sampleReader Config.sampleStore (by decide) (by decide) (by decide)⟩

/-- Claim C2 (confirmed): for every student and input page index (on runs
where the output exists), the output page for that student and index is a
copy of input page `i` with the mask page obtained from
`mapping[i].get_mask_page(context)` merged onto it — `context` being the
caller's dictionary updated with that student and page index. -/
theorem merge_page_composition (cx : Context) (ss : List Student)
    (mapping : List Mask) (input_pdf : PdfReader) (store : List Content)
    (hids : ∀ id ∈ input_pdf.pageIds, id < store.length)
    (hn : input_pdf.getNumPages ≤ mapping.length)
    (hwf : ∀ m ∈ mapping.take input_pdf.getNumPages, m.wf = true) :
    ∃ st', merge cx ss mapping input_pdf store = Except.ok st' ∧
      ∀ (si pi : Nat) (hsi : si < ss.length) (hpi : pi < input_pdf.getNumPages),
        ∃ pid inp mf mask,
          input_pdf.pageIds[pi]? = some pid ∧
          store[pid]? = some inp ∧
          mapping[pi]? = some mf ∧
          mf.get_mask_page (ctxWith cx (ss.get ⟨si, hsi⟩) pi) = some mask ∧
          (outContents st')[si * input_pdf.getNumPages + pi]? =
            some (some (Content.overlay inp mask)) := by
  obtain ⟨st', h1, _, _, _, _, _, _, h8⟩ := merge_spec cx ss mapping input_pdf store hids hn hwf
  refine ⟨st', h1, ?_⟩
  intro si pi hsi hpi
  have hpers := personalized_isSome ⟨cx.teacher, cx.school, none, none⟩ mapping input_pdf store
    (ss.get ⟨si, hsi⟩) pi hids hwf hpi (lt_of_lt_of_le hpi hn)
  obtain ⟨pid, inp, mf, mask, hpid, hinp, hmf, hmask, heq⟩ :=
    personalized_eq_some ⟨cx.teacher, cx.school, none, none⟩ mapping input_pdf store
      (ss.get ⟨si, hsi⟩) pi hpers
  refine ⟨pid, inp, mf, mask, hpid, hinp, hmf, hmask, ?_⟩
  rw [h8, pagesFor_getElem _ _ _ _ _ ss si pi hsi hpi, heq]

/-- Witness for C2: the script's configuration with a five-page input. -/
theorem merge_page_composition_witness :
    ((∀ id ∈ Config.sampleReader.pageIds, id < Config.sampleStore.length) ∧
      Config.sampleReader.getNumPages ≤ Config.mapping.length ∧
      (∀ m ∈ Config.mapping.take Config.sampleReader.getNumPages, m.wf = true)) ∧
    (∃ st', merge Config.context Config.students Config.mapping Config.sampleReader
        Config.sampleStore = Except.ok st' ∧
      ∀ (si pi : Nat) (hsi : si < Config.students.length)
        (hpi : pi < Config.sampleReader.getNumPages),
        ∃ pid inp mf mask,
          Config.sampleReader.pageIds[pi]? = some pid ∧
          Config.sampleStore[pid]? = some inp ∧
          Config.mapping[pi]? = some mf ∧
          mf.get_mask_page (ctxWith Config.context (Config.students.get ⟨si, hsi⟩) pi) =
            some mask ∧
          (outContents st')[si * Config.sampleReader.getNumPages + pi]? =
            some (some (Content.overlay inp mask))) :=
  ⟨⟨by decide, by decide, by decide⟩,
   merge_page_composition Config.context Config.students Config.mapping
     Config.sampleReader Config.sampleStore (by decide) (by decide) (by decide)⟩

/-- Claim C5 (confirmed): `merge` never mutates the pages of the input PDF
reader.  Whether the run returns or raises, the final page store is the
initial store extended with freshly allocated copies, every pre-existing
page object is unchanged, and in particular every page of the input reader
is unchanged — the mask merging mutates only the copies. -/
theorem merge_preserves_input_pages (cx : Context) (ss : List Student)
    (mapping : List Mask) (input_pdf : PdfReader) (store : List Content) :
    (∃ t, (resultState (merge cx ss mapping input_pdf store)).store = store ++ t) ∧
    (∀ j, j < store.length →
      (resultState (merge cx ss mapping input_pdf store)).store[j]? = store[j]?) ∧
    (∀ id ∈ input_pdf.pageIds, id < store.length →
      (resultState (merge cx ss mapping input_pdf store)).store[id]? = store[id]?) := by
  obtain ⟨t, ht⟩ := runStudents_store_mono mapping input_pdf ss ⟨store, cx, []⟩
  have ht' : (resultState (merge cx ss mapping input_pdf store)).store = store ++ t := ht
  refine ⟨⟨t, ht'⟩, ?_, ?_⟩
  · intro j hj
    rw [ht', List.getElem?_append_left hj]
  · intro id _ hid
    rw [ht', List.getElem?_append_left hid]

/-- Witness for C5: page object 0 of the five-page sample run is unchanged. -/
theorem merge_preserves_input_pages_witness :
    (0 < Config.sampleStore.length ∧ 0 ∈ Config.sampleReader.pageIds) ∧
    (resultState (merge Config.context Config.students Config.mapping Config.sampleReader
      Config.sampleStore)).store[0]? = Config.sampleStore[0]? :=
  ⟨⟨by decide, by decide⟩,
   (merge_preserves_input_pages Config.context Config.students Config.mapping
     Config.sampleReader Config.sampleStore).2.1 0 (by decide)⟩

/-- Claim C10 (confirmed): `merge` mutates the caller's context dictionary in
place (the returned state's `ctx` field is that dictionary after the call):
for every non-empty student list and input PDF with at least one page, after
`merge` returns, `context['student']` is the last student of the list and
`context['page_num']` is the last page index, while `teacher` and `school`
are untouched. -/
theorem merge_context_mutation (cx : Context) (ss : List Student)
    (mapping : List Mask) (input_pdf : PdfReader) (store : List Content)
    (hids : ∀ id ∈ input_pdf.pageIds, id < store.length)
    (hn : input_pdf.getNumPages ≤ mapping.length)
    (hwf : ∀ m ∈ mapping.take input_pdf.getNumPages, m.wf = true)
    (slast : Student) (hlast : ss.getLast? = some slast)
    (hpages : 1 ≤ input_pdf.getNumPages) :
    ∃ st', merge cx ss mapping input_pdf store = Except.ok st' ∧
      st'.ctx.teacher = cx.teacher ∧ st'.ctx.school = cx.school ∧
      st'.ctx.student = some slast ∧
      st'.ctx.page_num = some (input_pdf.getNumPages - 1) := by
  obtain ⟨st', h1, _, h3, h4, h5, h6, _, _⟩ := merge_spec cx ss mapping input_pdf store hids hn hwf
  have hne : ss ≠ [] := by
    intro h
    rw [h] at hlast
    simp at hlast
  refine ⟨st', h1, h3, h4, ?_, ?_⟩
  · rw [h5, lastStudent_getLast ss cx.student hne, hlast]
  · rw [h6, threadPages_total input_pdf.getNumPages hpages ss cx.page_num hne]

/-- Witness for C10: on the script's configuration the final context holds
the last student (Jakub Janoszek) and page index 4. -/
theorem merge_context_mutation_witness :
    ((∀ id ∈ Config.sampleReader.pageIds, id < Config.sampleStore.length) ∧
      Config.sampleReader.getNumPages ≤ Config.mapping.length ∧
      (∀ m ∈ Config.mapping.take Config.sampleReader.getNumPages, m.wf = true) ∧
      Config.students.getLast? = some ⟨"Jakub", "Janoszek", 19757⟩ ∧
      1 ≤ Config.sampleReader.getNumPages) ∧
    (∃ st', merge Config.context Config.students Config.mapping Config.sampleReader
        Config.sampleStore = Except.ok st' ∧
      st'.ctx.teacher = Config.context.teacher ∧ st'.ctx.school = Config.context.school ∧
      st'.ctx.student = some ⟨"Jakub", "Janoszek", 19757⟩ ∧
      st'.ctx.page_num = some (Config.sampleReader.getNumPages - 1)) :=
  ⟨⟨by decide, by decide, by decide, by decide, by decide⟩,
   merge_context_mutation Config.context Config.students Config.mapping Config.sampleReader
     Config.sampleStore (by decide) (by decide) (by decide) ⟨"Jakub", "Janoszek", 19757⟩
     (by decide) (by decide)⟩


/-- Claim C3 (confirmed): `merge` performs no validation of the input page
count against the mapping length.  When the input PDF has more pages than
the mapping (and the run reaches the pages: at least one student, and the
in-range masks render), the `mapping[page_num]` lookup raises at the first
page index past the mapping, the exception propagates to the caller
unhandled (`merge` results in `Except.error`), and the pages added before
that point are retained in the writer: the raise-time state holds exactly
`len(mapping)` personalized pages of the first student, with
`page_num = len(mapping)`. -/
theorem merge_mapping_overrun (cx : Context) (s0 : Student) (rest : List Student)
    (mapping : List Mask) (input_pdf : PdfReader) (store : List Content)
    (hids : ∀ id ∈ input_pdf.pageIds, id < store.length)
    (hwf : ∀ m ∈ mapping.take input_pdf.getNumPages, m.wf = true)
    (hk : mapping.length < input_pdf.getNumPages) :
    ∃ e, merge cx (s0 :: rest) mapping input_pdf store = Except.error e ∧
      e.ctx.page_num = some mapping.length ∧
      e.ctx.student = some s0 ∧
      e.output.length = mapping.length ∧
      outContents e = (List.range mapping.length).map
        (personalized ⟨cx.teacher, cx.school, none, none⟩ mapping input_pdf store s0) := by
  have hall : ∀ p ∈ List.range mapping.length,
      (personalized ⟨cx.teacher, cx.school, none, none⟩ mapping input_pdf store s0 p).isSome := by
    intro p hp
    rw [List.mem_range] at hp
    exact personalized_isSome _ mapping input_pdf store s0 p hids hwf (lt_trans hp hk) hp
  obtain ⟨st2, hrun2, ⟨t2, ht2⟩, hT2, hSch2, hstu2, hpn2, hout2, hoc2⟩ :=
    runPages_spec mapping input_pdf store cx.teacher cx.school s0 hids
      (List.range mapping.length) ⟨store, { cx with student := some s0 }, []⟩
      ⟨[], by simp⟩ (by intro id hid; simp at hid) rfl rfl rfl hall
  have ht2' : st2.store = store ++ t2 := ht2
  have hklt : mapping.length < input_pdf.pageIds.length := hk
  obtain ⟨pid, hpid⟩ : ∃ pid, input_pdf.pageIds[mapping.length]? = some pid := by
    rw [List.getElem?_eq_getElem hklt]; exact ⟨_, rfl⟩
  have hpidlt : pid < store.length := hids pid (mem_of_getElem_some _ _ _ hpid)
  obtain ⟨content, hcont⟩ : ∃ content, st2.store[pid]? = some content := by
    rw [ht2', List.getElem?_append_left hpidlt, List.getElem?_eq_getElem hpidlt]
    exact ⟨_, rfl⟩
  have hmapnone : mapping[mapping.length]? = none := List.getElem?_eq_none_iff.mpr le_rfl
  have hstep : mergeStep mapping input_pdf mapping.length st2 =
      Except.error ⟨st2.store ++ [content], { st2.ctx with page_num := some mapping.length },
        st2.output⟩ := by
    simp only [mergeStep, hpid, hcont, hmapnone]
  obtain ⟨m, hm⟩ : ∃ m, input_pdf.getNumPages - mapping.length = m + 1 :=
    ⟨input_pdf.getNumPages - mapping.length - 1, by omega⟩
  have hL : (List.range (input_pdf.getNumPages - mapping.length)).map
      (fun x => mapping.length + x) =
      mapping.length :: (List.range m).map (fun x => mapping.length + Nat.succ x) := by
    rw [hm, List.range_succ_eq_map]
    simp [List.map_map, Function.comp]
  have hsplit : List.range input_pdf.getNumPages =
      List.range mapping.length ++
        (mapping.length :: (List.range m).map (fun x => mapping.length + Nat.succ x)) := by
    rw [show input_pdf.getNumPages =
        mapping.length + (input_pdf.getNumPages - mapping.length) by omega,
      List.range_add, hL]
  have hinner : runPages mapping input_pdf (List.range input_pdf.getNumPages)
      ⟨store, { cx with student := some s0 }, []⟩ =
      Except.error ⟨st2.store ++ [content], { st2.ctx with page_num := some mapping.length },
        st2.output⟩ := by
    rw [hsplit, runPages_append, hrun2]
    show runPages mapping input_pdf (mapping.length :: _) st2 = _
    simp only [runPages, hstep]
  refine ⟨⟨st2.store ++ [content], { st2.ctx with page_num := some mapping.length },
    st2.output⟩, ?_, rfl, hstu2, ?_, ?_⟩
  · show runStudents mapping input_pdf (s0 :: rest) ⟨store, cx, []⟩ = _
    simp only [runStudents, hinner]
  · have hlen := congrArg List.length hoc2
    rw [outContents_length] at hlen
    simpa [outContents] using hlen
  · show st2.output.map (fun i => (st2.store ++ [content])[i]?) = _
    rw [map_eq_on st2.output _ (fun i => st2.store[i]?)
      (fun id hid => List.getElem?_append_left (hout2 id hid))]
    simpa [outContents] using hoc2

/-- Witness for C3: the script's configuration run over a six-page input
document (one page more than the five mapping entries). -/
theorem merge_mapping_overrun_witness :
    ((∀ id ∈ Config.bigReader.pageIds, id < Config.bigStore.length) ∧
      (∀ m ∈ Config.mapping.take Config.bigReader.getNumPages, m.wf = true) ∧
      Config.mapping.length < Config.bigReader.getNumPages) ∧
    (∃ e, merge Config.context (Config.stu :: Config.students.tail) Config.mapping
        Config.bigReader Config.bigStore = Except.error e ∧
      e.ctx.page_num = some Config.mapping.length ∧
      e.ctx.student = some Config.stu ∧
      e.output.length = Config.mapping.length ∧
      outContents e = (List.range Config.mapping.length).map
        (personalized ⟨Config.context.teacher, Config.context.school, none, none⟩
          Config.mapping Config.bigReader Config.bigStore Config.stu)) :=
  ⟨⟨by decide, by decide, by decide⟩,
   merge_mapping_overrun Config.context Config.stu Config.students.tail Config.mapping
     Config.bigReader Config.bigStore (by decide) (by decide) (by decide)⟩

/-- Claim C8 (confirmed): the overlays carry the per-student identifying
information.  On any context holding a student (and a page number),
`TaskPageMask.render` draws an opaque white-filled, black-stroked rectangle
and then a five-row label/value table with the student's last name, first
name, the teacher's last and first name, the student's id and the school;
`AnswerSheetMask.render` draws an opaque white-filled rectangle and then,
in black, the student's id and the page number. -/
theorem mask_render_contents (tm : TaskPageMask) (am : AnswerSheetMask) (cx : Context)
    (s : Student) (p : Nat) (hs : cx.student = some s) (hp : cx.page_num = some p) :
    ((SimpleMask.task tm).render (SimpleMask.task tm).get_canvas cx).map Canvas.ops =
      some [DrawOp.rect tm.left_margin tm.bottom_margin tm.box_width tm.box_height 1 1
          (some Color.black) (some Color.white) (some (0.2 * mm)),
        DrawOp.table
          ⟨tm.left_margin, tm.bottom_margin, tm.box_width, tm.box_height,
            1 * mm, 1 * mm, 2.5 * mm, 0 * mm⟩
          ⟨[("Last name:", s.last_name), ("Name:", s.first_name),
            ("Teacher:", cx.teacher.last_name ++ " " ++ cx.teacher.first_name),
            ("ID:", toString s.id), ("School:", cx.school)],
            [30 * mm, tm.box_width - 32 * mm],
            List.replicate 5 ((tm.box_height - 3 * mm) / 5),
            8, 13, Color.white⟩] ∧
    ((SimpleMask.answer am).render (SimpleMask.answer am).get_canvas cx).map Canvas.ops =
      some [DrawOp.rect am.left_margin am.bottom_margin am.box_width am.box_height 0 1
          (some Color.black) (some Color.white) (some (0.2 * mm)),
        DrawOp.drawString (am.left_margin + 2 * mm) (am.bottom_margin + 2 * mm)
          ("ID: " ++ toString s.id) (some Color.black) (some ("Helvetica", 8)),
        DrawOp.drawRightString (am.left_margin + am.box_width - 2 * mm)
          (am.bottom_margin + 2 * mm) ("(Seite " ++ toString p ++ ")")
          (some Color.black) (some ("Helvetica", 8))] := by
  constructor
  · simp [SimpleMask.render, TaskPageMask.render, SimpleMask.get_canvas, hs,
      Canvas.new, Canvas.setStrokeColor, Canvas.setFillColor, Canvas.setLineWidth,
      Canvas.rect, Canvas.addTable]
  · simp [SimpleMask.render, AnswerSheetMask.render, SimpleMask.get_canvas, hs, hp,
      Canvas.new, Canvas.setStrokeColor, Canvas.setFillColor, Canvas.setLineWidth,
      Canvas.setFont, Canvas.rect, Canvas.drawString, Canvas.drawRightString]


/-- Witness for C8: the script's own task and answer-sheet masks rendered for
the first student on page 0. -/
theorem mask_render_contents_witness :
    (Config.sampleCtx.student = some Config.stu ∧ Config.sampleCtx.page_num = some 0) ∧
    (((SimpleMask.task Config.task_mask).render (SimpleMask.task Config.task_mask).get_canvas
        Config.sampleCtx).map Canvas.ops =
      some [DrawOp.rect Config.task_mask.left_margin Config.task_mask.bottom_margin
          Config.task_mask.box_width Config.task_mask.box_height 1 1
          (some Color.black) (some Color.white) (some (0.2 * mm)),
        DrawOp.table
          ⟨Config.task_mask.left_margin, Config.task_mask.bottom_margin,
            Config.task_mask.box_width, Config.task_mask.box_height,
            1 * mm, 1 * mm, 2.5 * mm, 0 * mm⟩
          ⟨[("Last name:", Config.stu.last_name), ("Name:", Config.stu.first_name),
            ("Teacher:", Config.sampleCtx.teacher.last_name ++ " " ++
              Config.sampleCtx.teacher.first_name),
            ("ID:", toString Config.stu.id), ("School:", Config.sampleCtx.school)],
            [30 * mm, Config.task_mask.box_width - 32 * mm],
            List.replicate 5 ((Config.task_mask.box_height - 3 * mm) / 5),
            8, 13, Color.white⟩] ∧
     ((SimpleMask.answer Config.simple_header_mask).render
        (SimpleMask.answer Config.simple_header_mask).get_canvas Config.sampleCtx).map
          Canvas.ops =
      some [DrawOp.rect Config.simple_header_mask.left_margin
          Config.simple_header_mask.bottom_margin Config.simple_header_mask.box_width
          Config.simple_header_mask.box_height 0 1
          (some Color.black) (some Color.white) (some (0.2 * mm)),
        DrawOp.drawString (Config.simple_header_mask.left_margin + 2 * mm)
          (Config.simple_header_mask.bottom_margin + 2 * mm)
          ("ID: " ++ toString Config.stu.id) (some Color.black) (some ("Helvetica", 8)),
        DrawOp.drawRightString (Config.simple_header_mask.left_margin +
            Config.simple_header_mask.box_width - 2 * mm)
          (Config.simple_header_mask.bottom_margin + 2 * mm)
          ("(Seite " ++ toString (0 : Nat) ++ ")")
          (some Color.black) (some ("Helvetica", 8))]) :=
  ⟨⟨rfl, rfl⟩, mask_render_contents Config.task_mask Config.simple_header_mask Config.sampleCtx
    Config.stu 0 rfl rfl⟩

end Mark
